import Mathlib

-- Verification of the UKB-Git-Audit-Tool history-scanning pipeline
-- (src/src/utilities.py and src/src/git_audit.py), as a shallow embedding.

set_option maxHeartbeats 1000000

namespace GitAudit

-- ===== Content Matcher: regex_pattern (src/src/utilities.py, lines 10-21) =====
-- The pattern is
--   (?<!\d)(?<!\.)(?<!rs)(?<!RS)(?<!Rs)(?<!rS)
--   (10[0-9]{5}|[1-5][0-9]{6}|6[0-4][0-9]{5}|6500000)(?!\d)
-- We embed it positionally over a list of characters: a match can start at any
-- index i where the alternation covers s[i..i+6] and the zero-width lookaround
-- conditions hold.  Because the body is seven digits and the first lookbehind
-- forbids a preceding digit, two match positions are always at least 7 apart,
-- so the leftmost non-overlapping matches found by re.findall are exactly the
-- set of positions at which the pattern matches.

/-- The regex character class `[0-9]` (ASCII codes 48-57). -/
def isDig (c : Char) : Bool := decide (48 ≤ c.toNat) && decide (c.toNat ≤ 57)

/-- The alternation `10[0-9]{5}|[1-5][0-9]{6}|6[0-4][0-9]{5}|6500000` of
`regex_pattern`, applied to a candidate seven-character window (characters are
compared by code point, as the regex engine does). -/
def regexAlt (l : List Char) : Bool :=
  match l with
  | [a, b, c, d, e, f, g] =>
      (a.toNat == '1'.toNat && b.toNat == '0'.toNat
        && isDig c && isDig d && isDig e && isDig f && isDig g)
      || (decide ('1'.toNat ≤ a.toNat) && decide (a.toNat ≤ '5'.toNat)
        && isDig b && isDig c && isDig d && isDig e && isDig f && isDig g)
      || (a.toNat == '6'.toNat
        && decide ('0'.toNat ≤ b.toNat) && decide (b.toNat ≤ '4'.toNat)
        && isDig c && isDig d && isDig e && isDig f && isDig g)
      || (a.toNat == '6'.toNat && b.toNat == '5'.toNat && c.toNat == '0'.toNat
        && d.toNat == '0'.toNat && e.toNat == '0'.toNat && f.toNat == '0'.toNat
        && g.toNat == '0'.toNat)
  | _ => false

/-- The character immediately before index `i`, if any. -/
def prevChar (s : List Char) (i : Nat) : Option Char :=
  match i with
  | 0 => none
  | j + 1 => s[j]?

/-- The lookbehind `(?<!\d)`: no digit immediately before the match. -/
def lbNoDigit (s : List Char) (i : Nat) : Bool :=
  match prevChar s i with
  | some c => !(isDig c)
  | none => true

/-- The lookbehind `(?<!\.)`: no literal dot immediately before the match. -/
def lbNoDot (s : List Char) (i : Nat) : Bool :=
  match prevChar s i with
  | some c => !(c.toNat == '.'.toNat)
  | none => true

/-- Whether the two characters ending just before index `i` are exactly `x`
then `y`; the width-2 lookbehinds `(?<!rs)` etc. are the negations of this. -/
def pairAt (s : List Char) (i : Nat) (x y : Char) : Bool :=
  match i with
  | j + 2 =>
      match s[j]?, s[j + 1]? with
      | some a, some b => a.toNat == x.toNat && b.toNat == y.toNat
      | _, _ => false
  | _ => false

/-- The candidate seven-character window starting at index `i`. -/
def window (s : List Char) (i : Nat) : List Char := (s.drop i).take 7

/-- The lookahead `(?!\d)`: no digit immediately after the seven matched
characters. -/
def lookA (s : List Char) (i : Nat) : Bool :=
  match s[i + 7]? with
  | some c => !(isDig c)
  | none => true

/-- Whether `regex_pattern()` matches the text `s` at position `i`: all six
lookbehinds, the alternation on the window, and the lookahead. -/
def regexMatchAt (s : List Char) (i : Nat) : Bool :=
  lbNoDigit s i && lbNoDot s i
  && !(pairAt s i 'r' 's') && !(pairAt s i 'R' 'S')
  && !(pairAt s i 'R' 's') && !(pairAt s i 'r' 'S')
  && regexAlt (window s i) && lookA s i

/-- The positions reported by `re.findall(regex_pattern(), text)` (matches are
at least 7 apart, see the non-overlap remark above, so findall reports all of
them). -/
def findallPositions (s : List Char) : List Nat :=
  (List.range s.length).filter (fun i => regexMatchAt s i)

-- ===== Spec-side matcher, written from the claim's words =====

/-- Numeric value of a seven-character all-digit window (the "7-digit
integer" of the spec). -/
def val7 (l : List Char) : Nat :=
  match l with
  | [a, b, c, d, e, f, g] =>
      1000000 * (a.toNat - 48) + 100000 * (b.toNat - 48) + 10000 * (c.toNat - 48)
      + 1000 * (d.toNat - 48) + 100 * (e.toNat - 48) + 10 * (f.toNat - 48)
      + (g.toNat - 48)
  | _ => 0

/-- Spec wording: the matched integer is "not preceded by another digit [or]
a literal dot". -/
def specPrevOk (s : List Char) (i : Nat) : Bool :=
  match prevChar s i with
  | some c => !(isDig c || c.toNat == '.'.toNat)
  | none => true

/-- Spec wording: the two characters before the match spell a case-insensitive
`rs` (the SNP-identifier guard forbids this). -/
def specRsBefore (s : List Char) (i : Nat) : Bool :=
  match i with
  | j + 2 =>
      match s[j]?, s[j + 1]? with
      | some a, some b =>
          (a.toNat == 'r'.toNat || a.toNat == 'R'.toNat)
          && (b.toNat == 's'.toNat || b.toNat == 'S'.toNat)
      | _, _ => false
  | _ => false

/-- Spec wording: the match is "not followed by another digit". -/
def specNoDigitAfter (s : List Char) (i : Nat) : Bool :=
  match s[i + 7]? with
  | some c => !(isDig c)
  | none => true

/-- Modelled from the words of claim C1: a seven-digit integer in
[1000000, 6500000], not preceded by another digit, a literal dot, or a
case-insensitive rs prefix, and not followed by another digit. -/
def specMatchAt (s : List Char) (i : Nat) : Bool :=
  ((window s i).length == 7) && (window s i).all isDig
  && decide (1000000 ≤ val7 (window s i)) && decide (val7 (window s i) ≤ 6500000)
  && specPrevOk s i && !(specRsBefore s i) && specNoDigitAfter s i

-- ===== pandas .unique(): first-appearance deduplication =====

/-- Deduplication keeping the first appearance of every value, the order
contract of `pandas.Series.unique` used on the `blob_hash` column. -/
def uniqueKeepFirst : List String → List String
  | [] => []
  | x :: t => x :: uniqueKeepFirst (t.filter (fun y => !(y == x)))
termination_by l => l.length
decreasing_by
  simpa using Nat.lt_succ_of_le (List.length_filter_le _ t)

-- ===== update_dictionary (src/src/utilities.py, lines 50-61) =====
-- A Python dict is modelled as an association list with pairwise-distinct
-- keys in insertion order: a shared key has its integer value incremented in
-- place, a new key is appended at the end.

/-- One `for key, value in new_dic.items()` iteration of `update_dictionary`:
`if key in ref_dic` increment in place, else bind the new key. -/
def dictPut (acc : List (String × Nat)) (kv : String × Nat) : List (String × Nat) :=
  if kv.1 ∈ acc.map Prod.fst then
    acc.map (fun p => if p.1 = kv.1 then (p.1, p.2 + kv.2) else p)
  else acc ++ [kv]

/-- `update_dictionary`: combine two dictionaries, summing the integer values
of shared keys. -/
def update_dictionary (ref_dic : List (String × Nat))
    (new_dic : List (String × Nat)) : List (String × Nat) :=
  new_dic.foldl dictPut ref_dic

-- ===== collections.Counter over the matched IDs =====

/-- `Counter(ids)`: distinct values in first-appearance order, each with its
multiplicity. -/
def counter (ids : List String) : List (String × Nat) :=
  (uniqueKeepFirst ids).map (fun k => (k, ids.count k))

-- ===== analyze_glob_hashes_for_pattern (src/src/git_audit.py, lines 161-209) =====
-- The per-object content fetch (`git show <hash>` + UTF-8 decode) is the
-- parameter `fetch`; `none` models a CalledProcessError or a
-- UnicodeDecodeError, both caught by the same handler.  The pattern argument
-- is the sensitive-ID regex embedded above (the only pattern the caller
-- passes).  The Python body builds the result row and the eid_dict update
-- from one findall run; we split the two components into `scanRowOf` and
-- `dicStep` over the same findall run.

/-- The ID substrings reported by `re.findall(pattern, text)`. -/
def findallIds (s : List Char) : List String :=
  (findallPositions s).map (fun i => (window s i).asString)

/-- `ContentScanResult`: one output row of the per-blob scan.  `eid_occ` is
`none` for the `np.nan` "unreadable" sentinel. -/
structure ScanRow where
  blob_hash : String
  eid_occ : Option Nat
  unique_occ : Nat
  found_ids : List (String × Nat)
deriving Repr, DecidableEq

/-- Stable insertion of one entry into a count-descending list (ties keep the
existing, earlier-inserted entries first). -/
def insertDesc (p : String × Nat) : List (String × Nat) → List (String × Nat)
  | [] => [p]
  | q :: t => if q.2 < p.2 then p :: q :: t else q :: insertDesc p t

/-- `Counter.most_common(5)`: entries sorted by count descending, ties in
first-encountered order, truncated to five. -/
def most_common5 (c : List (String × Nat)) : List (String × Nat) :=
  (c.foldl (fun acc p => insertDesc p acc) []).take 5

/-- The scan-result row the loop body appends for one blob hash. -/
def scanRowOf (fetch : String → Option (List Char)) (blob_hash : String) : ScanRow :=
  match fetch blob_hash with
  | none =>
      -- defaults survive: eid_occ = np.nan, unique_count = 0, top_ids = ""
      { blob_hash := blob_hash, eid_occ := none, unique_occ := 0, found_ids := [] }
  | some text =>
      let ids := findallIds text
      { blob_hash := blob_hash
        eid_occ := some ids.length
        unique_occ := (uniqueKeepFirst ids).length
        found_ids := if ids.length = 0 then [] else most_common5 (counter ids) }

/-- The `eid_dict` update the loop body performs for one blob hash (only a
readable blob with a nonzero match count contributes). -/
def dicStep (fetch : String → Option (List Char))
    (dic : List (String × Nat)) (blob_hash : String) : List (String × Nat) :=
  match fetch blob_hash with
  | none => dic
  | some text =>
      let ids := findallIds text
      if ids.length = 0 then dic else update_dictionary dic (counter ids)

/-- The `for blob_hash in unique_blobs` loop, threading `eid_dict`. -/
def scanLoop (fetch : String → Option (List Char)) :
    List String → List (String × Nat) → List ScanRow × List (String × Nat)
  | [], dic => ([], dic)
  | h :: t, dic =>
      let rest := scanLoop fetch t (dicStep fetch dic h)
      (scanRowOf fetch h :: rest.1, rest.2)

/-- `analyze_glob_hashes_for_pattern`: scan each value of
`df["blob_hash"].dropna().unique()` once, returning the per-blob rows and the
global ID-frequency table. -/
def analyze_glob_hashes_for_pattern (fetch : String → Option (List Char))
    (blob_col : List (Option String)) : List ScanRow × List (String × Nat) :=
  scanLoop fetch (uniqueKeepFirst (blob_col.filterMap id)) []

-- ===== contextualise_git_status (src/src/utilities.py, lines 64-87) =====

/-- A value of the pandas `status` column: a Python str, or a non-string
(e.g. a NaN float), which `isinstance(status, str)` rejects. -/
inductive PyVal where
  | str (s : String)
  | other
deriving Repr, DecidableEq

/-- The Python exceptions the embedding distinguishes. -/
inductive PyExn where
  | valueError
  | unboundLocalError
deriving Repr, DecidableEq

/-- ASCII whitespace as Python's str.strip / int() skip it (space, tab,
newline, carriage return, vertical tab, form feed; non-ASCII whitespace is
outside our character model). -/
def isPySpace (c : Char) : Bool :=
  c == ' ' || c == '\t' || c == '\n' || c == '\r' || c.toNat == 11 || c.toNat == 12

/-- Python str.strip(): drop whitespace from both ends. -/
def pyStripChars (l : List Char) : List Char :=
  ((l.dropWhile isPySpace).reverse.dropWhile isPySpace).reverse

/-- Continuation of a digit run: digits, with single underscores allowed
between two digits. -/
def digitTail : List Char → Bool
  | [] => true
  | '_' :: c :: rest => isDig c && digitTail rest
  | c :: rest => isDig c && digitTail rest

/-- A nonempty digit run with single underscores between digits: the body of
a Python decimal int literal. -/
def digitRun : List Char → Bool
  | [] => false
  | c :: rest => isDig c && digitTail rest

/-- Numeric value of a digit run, skipping underscores. -/
def digitsVal (l : List Char) : Int :=
  l.foldl (fun a c => if c = '_' then a else 10 * a + ((c.toNat : Int) - 48)) 0

/-- Python `int(s)`: optional surrounding whitespace, an optional sign, then
a nonempty digit run with single underscores between digits; `none` models
the ValueError any other string raises. -/
def int_parse (s : List Char) : Option Int :=
  match pyStripChars s with
  | '+' :: rest => if digitRun rest then some (digitsVal rest) else none
  | '-' :: rest => if digitRun rest then some (-(digitsVal rest)) else none
  | rest => if digitRun rest then some (digitsVal rest) else none

/-- `status.startswith(c)` for a single-character prefix: the first character
is `c`. -/
def firstCharIs (s : String) (c : Char) : Bool :=
  match s.toList with
  | d :: _ => d == c
  | [] => false

/-- `contextualise_git_status`: replace the Git status codes (A, M, D, Rxxx,
Cxxx, ...) with short descriptions; `int(status[1:])` can raise ValueError. -/
def contextualise_git_status (status : PyVal) : Except PyExn String :=
  match status with
  | .other => .ok "unknown"
  | .str s =>
      if s = "A" then .ok "added"
      else if s = "D" then .ok "deleted"
      else if s = "M" then .ok "modified"
      else if s = "T" then .ok "type_change"
      else if s = "U" then .ok "unmerged_conflict"
      else if firstCharIs s 'R' then
        match int_parse (s.toList.drop 1) with
        | some n => .ok ("renamed_similarity_" ++ toString n ++ "%")
        | none => .error .valueError
      else if firstCharIs s 'B' then
        match int_parse (s.toList.drop 1) with
        | some n => .ok ("broken_pairing_similarity_" ++ toString n ++ "%")
        | none => .error .valueError
      else if firstCharIs s 'C' then
        match int_parse (s.toList.drop 1) with
        | some n => .ok ("copied_similarity_" ++ toString n ++ "%")
        | none => .error .valueError
      else .ok "unknown"

instance {α β : Type} [DecidableEq α] [DecidableEq β] :
    DecidableEq (Except α β) := fun a b =>
  match a, b with
  | .ok x, .ok y =>
      if h : x = y then .isTrue (by rw [h]) else .isFalse (by simp [h])
  | .error x, .error y =>
      if h : x = y then .isTrue (by rw [h]) else .isFalse (by simp [h])
  | .ok _, .error _ => .isFalse (by simp)
  | .error _, .ok _ => .isFalse (by simp)

-- ===== parse_full_log_to_dataframe (src/src/git_audit.py, lines 76-123) =====

/-- Python `s.split(sep)` for a one-character separator (the parser only
splits on newline, pipe and tab). -/
def splitOnChar (sep : Char) : List Char → List (List Char)
  | [] => [[]]
  | c :: t =>
      let r := splitOnChar sep t
      if c = sep then [] :: r
      else
        match r with
        | h :: t' => (c :: h) :: t'
        | [] => [[c]]

/-- One row of the parsed commit log (`full_log_df`). -/
structure LogRow where
  commit : String
  status : String
  filename : String
  date : String
  refs : String
  old_filename : String
deriving Repr, DecidableEq

/-- `parts[i]` of a split line, as a string.  (Python raises IndexError on a
malformed short line; the claims only touch well-formed lines, where the
index is present.) -/
def getPart (parts : List (List Char)) (i : Nat) : String := (parts.getD i []).asString

/-- `re.match(r'^[A-Z]', line)`: the line starts with an ASCII capital. -/
def isStatusLine (l : List Char) : Bool :=
  match l with
  | c :: _ => decide (65 ≤ c.toNat) && decide (c.toNat ≤ 90)
  | [] => false

/-- `line.startswith('COMMIT_START')`. -/
def isCommitHeader (l : List Char) : Bool :=
  decide (l.take 12 = "COMMIT_START".toList)

/-- One line of the log-parsing loop.  The state is (current_commit,
current_date, current_refs); Python initialises the three to None, and git
log output always opens with a COMMIT_START header, so the embedding
initialises them to "". -/
def parseLogLine (st : String × String × String) (acc : List LogRow)
    (line : List Char) : (String × String × String) × List LogRow :=
  if isCommitHeader line then
    let parts := splitOnChar '|' line
    ((getPart parts 1, getPart parts 2, getPart parts 3), acc)
  else if !(isStatusLine line) then (st, acc)
  else
    let parts := splitOnChar '\t' line
    let status := getPart parts 0
    if firstCharIs status 'R' then
      (st, acc ++ [{ commit := st.1, status := status, filename := getPart parts 2,
                     date := st.2.1, refs := st.2.2, old_filename := getPart parts 1 }])
    else
      (st, acc ++ [{ commit := st.1, status := status, filename := getPart parts 1,
                     date := st.2.1, refs := st.2.2, old_filename := "" }])

/-- `parse_full_log_to_dataframe`: strip the raw git log output, split it
into lines and fold the line parser over them. -/
def parse_full_log_to_dataframe (raw : String) : List LogRow :=
  ((splitOnChar '\n' (pyStripChars raw.toList)).foldl
    (fun p line => parseLogLine p.1 p.2 line) (("", "", ""), [])).2

-- ===== get_blob_hashes_for_commits (src/src/git_audit.py, lines 125-157) =====

/-- One row of `blob_hashes_df`: a (commit, blob_hash, filename) tree entry. -/
structure TreeRow where
  commit : String
  blob_hash : String
  filename : String
deriving Repr, DecidableEq

/-- Python `header.split()` (no argument): split on whitespace runs, no empty
tokens.  The accumulator carries the current token reversed. -/
def splitWsAux : List Char → List Char → List String
  | cur, [] => if cur.isEmpty then [] else [cur.reverse.asString]
  | cur, c :: t =>
      if isPySpace c then
        if cur.isEmpty then splitWsAux [] t
        else cur.reverse.asString :: splitWsAux [] t
      else splitWsAux (c :: cur) t

def splitWs (l : List Char) : List String := splitWsAux [] l

/-- `part.split('\t', 1)`: split at the first tab; `none` when there is no
tab, where Python's two-name unpacking raises ValueError. -/
def splitOnceTab : List Char → Option (List Char × List Char)
  | [] => none
  | c :: t =>
      if c = '\t' then some ([], t)
      else
        match splitOnceTab t with
        | some (a, b) => some (c :: a, b)
        | none => none

/-- Parse one NUL-separated `git ls-tree -r -z` record: keep it when the
header has three fields and the second is "blob". -/
def parseTreePart (commit : String) (part : List Char) :
    Except PyExn (Option TreeRow) :=
  match splitOnceTab part with
  | none => .error .valueError
  | some (header, filename) =>
      let hp := splitWs header
      if hp.length = 3 ∧ hp.getD 1 "" = "blob" then
        .ok (some { commit := commit, blob_hash := hp.getD 2 "",
                    filename := filename.asString })
      else .ok none

/-- All blob records of one commit's `git ls-tree` stdout (the loop body
iterates `parts[:-1]`). -/
def parseTreeParts (commit : String) : List (List Char) → Except PyExn (List TreeRow)
  | [] => .ok []
  | p :: rest => do
      let r ← parseTreePart commit p
      let t ← parseTreeParts commit rest
      match r with
      | some row => .ok (row :: t)
      | none => .ok t

def parseLsTreeOutput (commit : String) (stdout : List Char) :
    Except PyExn (List TreeRow) :=
  parseTreeParts commit ((splitOnChar (Char.ofNat 0) stdout).dropLast)

/-- The `for commit in commits.unique()` loop of `get_blob_hashes_for_commits`.
`lsTree` is the `git ls-tree -r -z` call; `.error ()` is a
CalledProcessError.  `bound` tracks whether the Python local `ls_tree_cmd`
has been assigned by an earlier iteration: the `except` handler prints
`ls_tree_cmd.stderr`, which raises UnboundLocalError when no iteration has
assigned it yet — i.e. when the very first ls-tree call fails. -/
def blobHashLoop (lsTree : String → Except Unit (List Char)) :
    List String → Bool → Except PyExn (List TreeRow)
  | [], _ => .ok []
  | c :: rest, bound =>
      match lsTree c with
      | .ok stdout => do
          let rows ← parseLsTreeOutput c stdout
          let t ← blobHashLoop lsTree rest true
          .ok (rows ++ t)
      | .error _ =>
          if bound then blobHashLoop lsTree rest bound
          else .error .unboundLocalError

/-- `get_blob_hashes_for_commits`: resolve every distinct commit's tree. -/
def get_blob_hashes_for_commits (lsTree : String → Except Unit (List Char))
    (commits : List String) : Except PyExn (List TreeRow) :=
  blobHashLoop lsTree (uniqueKeepFirst commits) false

-- ===== audit_repository merge pipeline (src/src/git_audit.py, lines 280-319) =====

/-- pandas left merge (`how='left'`): every left row is kept in order; a row
with matches is repeated once per matching right row, a row without any
keeps null right-hand fields. -/
def leftJoin {α β γ : Type} (key : α → β → Bool) (combine : α → Option β → γ)
    (left : List α) (right : List β) : List γ :=
  left.flatMap (fun a =>
    match right.filter (key a) with
    | [] => [combine a none]
    | bs => bs.map (fun b => combine a (some b)))

/-- One row of `blob_sizes_df` (objectname/objectsize renamed to
blob_hash/size_bytes). -/
structure SizeRow where
  blob_hash : String
  size_bytes : Nat
deriving Repr, DecidableEq

/-- One row of the merged audit table.  `eid_occ` is `none` (pandas NaN)
both when the row has no tree entry and when its blob was unreadable;
`size_MB`, a float display column, and the date reformat / link columns are
omitted. -/
structure AuditRow where
  commit : String
  status : String
  filename : String
  date : String
  refs : String
  old_filename : String
  blob_hash : Option String
  size_bytes : Option Nat
  eid_occ : Option Nat
  unique_occ : Option Nat
  found_ids : Option (List (String × Nat))
  filename_occ : Nat
  file_ext : String
  total_occ : Nat
deriving Repr, DecidableEq

/-- A log row as an audit row before any join has filled the null columns. -/
def rowOfLog (e : LogRow) : AuditRow :=
  { commit := e.commit, status := e.status, filename := e.filename,
    date := e.date, refs := e.refs, old_filename := e.old_filename,
    blob_hash := none, size_bytes := none, eid_occ := none, unique_occ := none,
    found_ids := none, filename_occ := 0, file_ext := "", total_occ := 0 }

/-- `pd.merge(full_log_df, blob_hashes_df, on=['commit', 'filename'],
how='left')`. -/
def mergeTree (log : List LogRow) (trees : List TreeRow) : List AuditRow :=
  leftJoin (fun e t => e.commit == t.commit && e.filename == t.filename)
    (fun e ob =>
      match ob with
      | some t => { rowOfLog e with blob_hash := some t.blob_hash }
      | none => rowOfLog e)
    log trees

/-- `pd.merge(merged_df, blob_sizes_df[['blob_hash', 'size_bytes']],
on='blob_hash', how='left')`: a null blob_hash key matches nothing. -/
def mergeSizes (rows : List AuditRow) (sizes : List SizeRow) : List AuditRow :=
  leftJoin (fun r s => r.blob_hash == some s.blob_hash)
    (fun r os =>
      match os with
      | some s => { r with size_bytes := some s.size_bytes }
      | none => r)
    rows sizes

/-- `pd.merge(final_df, glob_hash_hits, on='blob_hash', how='left')`: every
row sharing a blob_hash receives the same scan result; a null blob_hash
keeps null scan fields. -/
def mergeScans (rows : List AuditRow) (scans : List ScanRow) : List AuditRow :=
  leftJoin (fun r s => r.blob_hash == some s.blob_hash)
    (fun r os =>
      match os with
      | some s => { r with eid_occ := s.eid_occ, unique_occ := some s.unique_occ,
                           found_ids := some s.found_ids }
      | none => r)
    rows scans

/-- `bool(re.search(pattern, filename))`: some position matches. -/
def searchMatches (s : List Char) : Bool := !(findallPositions s).isEmpty

/-- `analyse_file_names` (src/src/git_audit.py, lines 211-223): the filename
match flag (1 or 0) and the guessed file extension.  `guessType` stands for
`mimetypes.guess_type`; the float `size_MB` column is omitted. -/
def analyse_file_names (guessType : String → Option String)
    (rows : List AuditRow) : List AuditRow :=
  rows.map (fun r =>
    { r with filename_occ := if searchMatches r.filename.toList then 1 else 0,
             file_ext := (guessType r.filename).getD "unknown" })

/-- The robust `total_occ` of audit_repository (lines 316-319):
`pd.to_numeric(eid_occ).fillna(0) + filename_occ`, NaN counting as 0.  (The
NaN-propagating assignment at line 308 is overwritten by this one whenever
the table is non-empty.) -/
def addTotalOcc (rows : List AuditRow) : List AuditRow :=
  rows.map (fun r => { r with total_occ := r.eid_occ.getD 0 + r.filename_occ })

/-- The merge-and-derive pipeline of `audit_repository` for a non-empty
parsed log, in source order: left-join tree entries, then sizes, scan the
distinct blob hashes of the merged table, left-join the scan rows back,
run the filename analysis, and compute the robust total.  The status
relabelling, date reformat and link columns, which touch no claimed field,
are omitted. -/
def auditTable (fetch : String → Option (List Char))
    (guessType : String → Option String) (log : List LogRow)
    (trees : List TreeRow) (sizes : List SizeRow) : List AuditRow :=
  let merged := mergeSizes (mergeTree log trees) sizes
  let scans := (analyze_glob_hashes_for_pattern fetch
    (merged.map (fun r => r.blob_hash))).1
  addTotalOcc (analyse_file_names guessType (mergeScans merged scans))

/-- A sample change event used by the witnesses. -/
def sampleLog : LogRow :=
  { commit := "c", status := "D", filename := "3240971.tsv", date := "",
    refs := "", old_filename := "" }

/-- The audit row the pipeline derives from `sampleLog` alone. -/
def sampleFinalRow : AuditRow :=
  { rowOfLog sampleLog with
      filename_occ := 1, file_ext := "unknown", total_occ := 1 }

/-- A tree entry of an unrelated commit, so `sampleLog` has no match. -/
def sampleTree : TreeRow :=
  { commit := "other", blob_hash := "h", filename := "f" }

theorem codeDot : ('.' : Char).toNat = 46 := rfl

theorem code0 : ('0' : Char).toNat = 48 := rfl

theorem code1 : ('1' : Char).toNat = 49 := rfl

theorem code4 : ('4' : Char).toNat = 52 := rfl

theorem code5 : ('5' : Char).toNat = 53 := rfl

theorem code6 : ('6' : Char).toNat = 54 := rfl

theorem codeLr : ('r' : Char).toNat = 114 := rfl

theorem codeUr : ('R' : Char).toNat = 82 := rfl

theorem codeLs : ('s' : Char).toNat = 115 := rfl

theorem codeUs : ('S' : Char).toNat = 83 := rfl

-- ===== Equivalence lemmas for C1 =====

theorem regexAlt_iff_range :
    ∀ l : List Char, regexAlt l = true ↔
      (l.length = 7 ∧ l.all isDig = true ∧ 1000000 ≤ val7 l ∧ val7 l ≤ 6500000)
  | [a, b, c, d, e, f, g] => by
      simp only [regexAlt, val7, isDig, List.all_cons, List.all_nil,
        Bool.or_eq_true, Bool.and_eq_true, beq_iff_eq, decide_eq_true_eq,
        code0, code1, code4, code5, code6, List.length_cons, List.length_nil,
        and_true, true_and]
      omega
  | [] => by simp [regexAlt]
  | [_] => by simp [regexAlt]
  | [_, _] => by simp [regexAlt]
  | [_, _, _] => by simp [regexAlt]
  | [_, _, _, _] => by simp [regexAlt]
  | [_, _, _, _, _] => by simp [regexAlt]
  | [_, _, _, _, _, _] => by simp [regexAlt]
  | a :: b :: c :: d :: e :: f :: g :: h :: t => by
      simp only [regexAlt, List.length_cons]
      constructor
      · intro hF; cases hF
      · rintro ⟨hl, -⟩; omega

theorem prev_lookbehinds_eq (s : List Char) (i : Nat) :
    (lbNoDigit s i && lbNoDot s i) = specPrevOk s i := by
  cases h : prevChar s i <;>
    simp [lbNoDigit, lbNoDot, specPrevOk, h, Bool.not_or]

theorem rs_lookbehinds_iff (s : List Char) (i : Nat) :
    ((!(pairAt s i 'r' 's') && !(pairAt s i 'R' 'S')
      && !(pairAt s i 'R' 's') && !(pairAt s i 'r' 'S')) = true)
      ↔ ¬(specRsBefore s i = true) := by
  rcases i with _ | _ | j
  · simp [pairAt, specRsBefore]
  · simp [pairAt, specRsBefore]
  · cases h1 : s[j]? <;> cases h2 : s[j + 1]? <;>
      simp only [pairAt, specRsBefore, h1, h2, Bool.and_eq_true,
        Bool.or_eq_true, Bool.not_eq_true', Bool.not_eq_true,
        Bool.and_eq_false_iff, beq_iff_eq, beq_eq_false_iff_ne, ne_eq,
        codeLr, codeUr, codeLs, codeUs, not_false_iff, not_and, not_or] <;>
      tauto

theorem regexMatchAt_iff_spec (s : List Char) (i : Nat) :
    regexMatchAt s i = true ↔ specMatchAt s i = true := by
  have hw := regexAlt_iff_range (window s i)
  have hp := prev_lookbehinds_eq s i
  have hrs := rs_lookbehinds_iff s i
  simp only [regexMatchAt, specMatchAt, Bool.and_eq_true, beq_iff_eq,
    decide_eq_true_eq, Bool.not_eq_true'] at *
  constructor
  · rintro ⟨⟨⟨⟨⟨⟨⟨h1, h2⟩, h3⟩, h4⟩, h5⟩, h6⟩, h7⟩, h8⟩
    have := hw.mp h7
    refine ⟨⟨⟨⟨⟨⟨?_, ?_⟩, ?_⟩, ?_⟩, ?_⟩, ?_⟩, ?_⟩ <;>
      first
        | exact this.1
        | exact this.2.1
        | exact this.2.2.1
        | exact this.2.2.2
        | (rw [← hp]; simp [h1, h2])
        | (simpa using hrs.mp (by simp [h3, h4, h5, h6]))
        | exact h8
  · rintro ⟨⟨⟨⟨⟨⟨hl, hd⟩, hlo⟩, hhi⟩, hpr⟩, hrsB⟩, haf⟩
    have halt : regexAlt (window s i) = true := hw.mpr ⟨hl, hd, hlo, hhi⟩
    have hpd : (lbNoDigit s i && lbNoDot s i) = true := by rw [hp]; exact hpr
    have hrs4 := hrs.mpr (by simp [hrsB])
    simp only [Bool.and_eq_true] at hpd hrs4
    exact ⟨⟨⟨⟨⟨⟨⟨hpd.1, hpd.2⟩, hrs4.1.1.1⟩, hrs4.1.1.2⟩, hrs4.1.2⟩, hrs4.2⟩,
      halt⟩, haf⟩

theorem mem_uniqueKeepFirst : ∀ (l : List String) (a : String),
    a ∈ uniqueKeepFirst l ↔ a ∈ l
  | [], a => by simp [uniqueKeepFirst]
  | x :: t, a => by
      rw [uniqueKeepFirst]
      by_cases hax : a = x
      · simp [hax]
      · simp only [List.mem_cons, hax, false_or]
        rw [mem_uniqueKeepFirst (t.filter (fun y => !(y == x))) a]
        simp [List.mem_filter, hax]
termination_by l => l.length
decreasing_by
  simpa using Nat.lt_succ_of_le (List.length_filter_le _ t)

theorem nodup_uniqueKeepFirst : ∀ l : List String, (uniqueKeepFirst l).Nodup
  | [] => by simp [uniqueKeepFirst]
  | x :: t => by
      rw [uniqueKeepFirst]
      refine List.nodup_cons.mpr ⟨?_, nodup_uniqueKeepFirst _⟩
      rw [mem_uniqueKeepFirst]
      simp
termination_by l => l.length
decreasing_by
  simpa using Nat.lt_succ_of_le (List.length_filter_le _ t)

theorem uniqueKeepFirst_append_mem : ∀ (l : List String) (x : String), x ∈ l →
    uniqueKeepFirst (l ++ [x]) = uniqueKeepFirst l
  | [], x, hx => by cases hx
  | y :: t, x, hx => by
      rw [List.cons_append, uniqueKeepFirst, uniqueKeepFirst, List.filter_append]
      by_cases hxy : x = y
      · simp [hxy]
      · have hxt : x ∈ t := by
          rcases List.mem_cons.mp hx with h | h
          · exact absurd h hxy
          · exact h
        have hxt' : x ∈ t.filter (fun y' => !(y' == y)) :=
          List.mem_filter.mpr ⟨hxt, by simp [hxy]⟩
        have : List.filter (fun y' => !(y' == y)) [x] = [x] := by simp [hxy]
        rw [this, uniqueKeepFirst_append_mem (t.filter (fun y' => !(y' == y))) x hxt']
termination_by l => l.length
decreasing_by
  simpa using Nat.lt_succ_of_le (List.length_filter_le _ t)

theorem uniqueKeepFirst_perm_dedup (l : List String) :
    (uniqueKeepFirst l).Perm l.dedup := by
  rw [List.perm_ext_iff_of_nodup (nodup_uniqueKeepFirst l) l.nodup_dedup]
  intro a
  rw [mem_uniqueKeepFirst, List.mem_dedup]

theorem dictPut_keys_nodup {acc : List (String × Nat)} {kv : String × Nat}
    (h : (acc.map Prod.fst).Nodup) : ((dictPut acc kv).map Prod.fst).Nodup := by
  unfold dictPut
  by_cases hmem : kv.1 ∈ acc.map Prod.fst
  · rw [if_pos hmem]
    have : (acc.map (fun p => if p.1 = kv.1 then (p.1, p.2 + kv.2) else p)).map Prod.fst
        = acc.map Prod.fst := by
      rw [List.map_map]
      refine List.map_congr_left ?_
      intro p _
      by_cases hp : p.1 = kv.1 <;> simp [hp]
    rw [this]; exact h
  · rw [if_neg hmem]
    rw [List.map_append]
    simp only [List.map_cons, List.map_nil]
    rw [List.nodup_append]
    refine ⟨h, List.nodup_singleton _, ?_⟩
    intro a ha hb
    simp only [List.mem_singleton] at hb
    subst hb
    exact hmem ha

theorem sum_map_addValue :
    ∀ (acc : List (String × Nat)) (k : String) (v : Nat),
      (acc.map Prod.fst).Nodup → k ∈ acc.map Prod.fst →
      ((acc.map (fun p => if p.1 = k then (p.1, p.2 + v) else p)).map Prod.snd).sum
        = (acc.map Prod.snd).sum + v
  | [], k, v, _, hmem => by simp at hmem
  | p :: t, k, v, h, hmem => by
      simp only [List.map_cons, List.nodup_cons] at h
      by_cases hpk : p.1 = k
      · have hnt : ∀ q ∈ t, (fun q => if q.1 = k then (q.1, q.2 + v) else q) q = q := by
          intro q hq
          have hqk : q.1 ≠ k := by
            intro hqk
            exact h.1 (by rw [hpk, ← hqk]; exact List.mem_map.mpr ⟨q, hq, rfl⟩)
          simp [hqk]
        have ht : t.map (fun q => if q.1 = k then (q.1, q.2 + v) else q) = t :=
          (List.map_congr_left hnt).trans (List.map_id t)
        simp only [List.map_cons, hpk, if_pos, ht, List.sum_cons]
        omega
      · have hkt : k ∈ t.map Prod.fst := by
          simp only [List.map_cons, List.mem_cons] at hmem
          rcases hmem with hk | hk
          · exact absurd hk.symm hpk
          · exact hk
        have := sum_map_addValue t k v h.2 hkt
        simp only [List.map_cons, hpk, if_neg, List.sum_cons, this,
          not_false_iff]
        omega

theorem dictPut_sum {acc : List (String × Nat)} (kv : String × Nat)
    (h : (acc.map Prod.fst).Nodup) :
    ((dictPut acc kv).map Prod.snd).sum = (acc.map Prod.snd).sum + kv.2 := by
  unfold dictPut
  by_cases hmem : kv.1 ∈ acc.map Prod.fst
  · rw [if_pos hmem]
    exact sum_map_addValue acc kv.1 kv.2 h hmem
  · rw [if_neg hmem]
    simp

theorem update_dictionary_keys_nodup (new_dic : List (String × Nat)) :
    ∀ ref_dic : List (String × Nat), (ref_dic.map Prod.fst).Nodup →
      ((update_dictionary ref_dic new_dic).map Prod.fst).Nodup := by
  induction new_dic with
  | nil => intro ref h; exact h
  | cons kv t ih =>
      intro ref h
      rw [update_dictionary, List.foldl_cons]
      exact ih (dictPut ref kv) (dictPut_keys_nodup h)

theorem update_dictionary_sum (new_dic : List (String × Nat)) :
    ∀ ref_dic : List (String × Nat), (ref_dic.map Prod.fst).Nodup →
      ((update_dictionary ref_dic new_dic).map Prod.snd).sum
        = (ref_dic.map Prod.snd).sum + (new_dic.map Prod.snd).sum := by
  induction new_dic with
  | nil => intro ref h; simp [update_dictionary]
  | cons kv t ih =>
      intro ref h
      rw [update_dictionary, List.foldl_cons]
      have := ih (dictPut ref kv) (dictPut_keys_nodup h)
      rw [update_dictionary] at this
      rw [this, dictPut_sum kv h]
      simp [List.sum_cons]
      omega

theorem counter_keys_nodup (ids : List String) :
    ((counter ids).map Prod.fst).Nodup := by
  rw [counter, List.map_map]
  have : (Prod.fst ∘ fun k => (k, ids.count k)) = id := rfl
  rw [this, List.map_id]
  exact nodup_uniqueKeepFirst ids

theorem counter_sum (ids : List String) :
    ((counter ids).map Prod.snd).sum = ids.length := by
  rw [counter, List.map_map]
  have : (Prod.snd ∘ fun k => (k, ids.count k)) = fun k => ids.count k := rfl
  rw [this]
  have hperm : ((uniqueKeepFirst ids).map fun k => ids.count k).Perm
      (ids.dedup.map fun k => ids.count k) :=
    (uniqueKeepFirst_perm_dedup ids).map _
  rw [hperm.sum_eq]
  exact List.sum_map_count_dedup_eq_length ids

theorem scanLoop_fst (fetch : String → Option (List Char)) :
    ∀ (l : List String) (dic : List (String × Nat)),
      (scanLoop fetch l dic).1 = l.map (scanRowOf fetch)
  | [], dic => rfl
  | h :: t, dic => by
      rw [scanLoop, List.map_cons]
      exact congrArg _ (scanLoop_fst fetch t _)

theorem dicStep_keys_nodup (fetch : String → Option (List Char))
    (dic : List (String × Nat)) (h : String)
    (hn : (dic.map Prod.fst).Nodup) :
    ((dicStep fetch dic h).map Prod.fst).Nodup := by
  unfold dicStep
  cases fetch h with
  | none => exact hn
  | some text =>
      by_cases hz : (findallIds text).length = 0
      · simp only [hz, if_pos]; exact hn
      · simp only [hz, if_neg, not_false_iff]
        exact update_dictionary_keys_nodup _ dic hn

theorem dicStep_sum (fetch : String → Option (List Char))
    (dic : List (String × Nat)) (h : String)
    (hn : (dic.map Prod.fst).Nodup) :
    ((dicStep fetch dic h).map Prod.snd).sum
      = (dic.map Prod.snd).sum + (scanRowOf fetch h).eid_occ.getD 0 := by
  unfold dicStep scanRowOf
  cases fetch h with
  | none => simp
  | some text =>
      by_cases hz : (findallIds text).length = 0
      · simp [hz]
      · simp only [hz, if_neg, not_false_iff]
        rw [update_dictionary_sum _ dic hn, counter_sum]
        simp

theorem scanLoop_snd_sum (fetch : String → Option (List Char)) :
    ∀ (l : List String) (dic : List (String × Nat)),
      (dic.map Prod.fst).Nodup →
      ((scanLoop fetch l dic).2.map Prod.snd).sum
        = (dic.map Prod.snd).sum
          + ((l.map (scanRowOf fetch)).map (fun r => r.eid_occ.getD 0)).sum
  | [], dic, _ => by simp [scanLoop]
  | h :: t, dic, hn => by
      rw [scanLoop]
      have ih := scanLoop_snd_sum fetch t (dicStep fetch dic h)
        (dicStep_keys_nodup fetch dic h hn)
      simp only [List.map_cons, List.sum_cons]
      rw [ih, dicStep_sum fetch dic h hn]
      omega

/-- C2: `analyze_glob_hashes_for_pattern` scans content exactly once per
distinct non-null `blob_hash` value of the table, regardless of how many rows
reference that hash (appending a duplicate reference changes nothing), and
returns exactly one `ContentScanResult` row per distinct scanned hash. -/
theorem C2_scan_dedup_by_blob_hash (fetch : String → Option (List Char))
    (blob_col : List (Option String)) :
    ((analyze_glob_hashes_for_pattern fetch blob_col).1.map ScanRow.blob_hash
        = uniqueKeepFirst (blob_col.filterMap id))
    ∧ ((analyze_glob_hashes_for_pattern fetch blob_col).1.map ScanRow.blob_hash).Nodup
    ∧ (∀ h : String, some h ∈ blob_col →
        ((analyze_glob_hashes_for_pattern fetch blob_col).1.map ScanRow.blob_hash).count h = 1)
    ∧ (∀ h : String, some h ∈ blob_col →
        analyze_glob_hashes_for_pattern fetch (blob_col ++ [some h])
          = analyze_glob_hashes_for_pattern fetch blob_col) := by
  have hhash : ∀ h : String, (scanRowOf fetch h).blob_hash = h := by
    intro h
    unfold scanRowOf
    cases fetch h <;> rfl
  have hmap : (analyze_glob_hashes_for_pattern fetch blob_col).1.map ScanRow.blob_hash
      = uniqueKeepFirst (blob_col.filterMap id) := by
    rw [analyze_glob_hashes_for_pattern, scanLoop_fst, List.map_map]
    refine ((List.map_congr_left ?_).trans (List.map_id _))
    intro h _
    exact hhash h
  refine ⟨hmap, ?_, ?_, ?_⟩
  · rw [hmap]; exact nodup_uniqueKeepFirst _
  · intro h hmem
    rw [hmap]
    refine List.count_eq_one_of_mem (nodup_uniqueKeepFirst _) ?_
    rw [mem_uniqueKeepFirst]
    exact List.mem_filterMap.mpr ⟨some h, hmem, rfl⟩
  · intro h hmem
    unfold analyze_glob_hashes_for_pattern
    rw [List.filterMap_append]
    have : List.filterMap id [some h] = [h] := rfl
    rw [this, uniqueKeepFirst_append_mem _ h (List.mem_filterMap.mpr ⟨some h, hmem, rfl⟩)]

/-- Witness for C2 at a concrete table: the hash "a" is referenced by two rows
(plus a null row) but yields exactly one result row, and a third reference
changes nothing. -/
theorem C2_scan_dedup_by_blob_hash_witness :
    ((analyze_glob_hashes_for_pattern (fun _ => none)
        [some "a", none, some "a"]).1.map ScanRow.blob_hash).count "a" = 1
    ∧ analyze_glob_hashes_for_pattern (fun _ => none)
        ([some "a", none, some "a"] ++ [some "a"])
      = analyze_glob_hashes_for_pattern (fun _ => none) [some "a", none, some "a"] :=
  ⟨(C2_scan_dedup_by_blob_hash (fun _ => none) [some "a", none, some "a"]).2.2.1
      "a" (by simp),
   (C2_scan_dedup_by_blob_hash (fun _ => none) [some "a", none, some "a"]).2.2.2
      "a" (by simp)⟩

/-- C6: a content fetch / decode failure never aborts the scan — every
referenced hash still gets a result row — and the unreadable case (`none`,
the NaN sentinel) is distinguishable from a successful read with zero matches
(`some 0`). -/
theorem C6_unreadable_vs_zero (fetch : String → Option (List Char))
    (blob_col : List (Option String)) (h : String) (hmem : some h ∈ blob_col) :
    ∃ r ∈ (analyze_glob_hashes_for_pattern fetch blob_col).1,
      r.blob_hash = h
      ∧ (fetch h = none → r.eid_occ = none)
      ∧ (∀ text, fetch h = some text → r.eid_occ = some (findallIds text).length)
      ∧ (none : Option Nat) ≠ some 0 := by
  refine ⟨scanRowOf fetch h, ?_, ?_, ?_, ?_, by simp⟩
  · rw [analyze_glob_hashes_for_pattern, scanLoop_fst]
    refine List.mem_map.mpr ⟨h, ?_, rfl⟩
    rw [mem_uniqueKeepFirst]
    exact List.mem_filterMap.mpr ⟨some h, hmem, rfl⟩
  · unfold scanRowOf; cases fetch h <;> rfl
  · intro hf; unfold scanRowOf; rw [hf]
  · intro text hf; unfold scanRowOf; rw [hf]

/-- Witness for C6: a table with one unreadable and one readable zero-match
blob. -/
theorem C6_unreadable_vs_zero_witness :
    ∃ r ∈ (analyze_glob_hashes_for_pattern
        (fun s => if s = "bad" then none else some "hello".toList)
        [some "bad", some "good"]).1,
      r.blob_hash = "bad"
      ∧ ((fun s => if s = "bad" then none else some "hello".toList) "bad" = none
          → r.eid_occ = none)
      ∧ (∀ text, (fun s => if s = "bad" then none else some "hello".toList) "bad"
          = some text → r.eid_occ = some (findallIds text).length)
      ∧ (none : Option Nat) ≠ some 0 :=
  C6_unreadable_vs_zero (fun s => if s = "bad" then none else some "hello".toList)
    [some "bad", some "good"] "bad" (by simp)

/-- C9: the sum of the counts in the global ID-frequency table equals the sum
of the per-object occurrence counts over the distinct scanned objects, with
unreadable objects contributing 0; each distinct object contributes through
exactly one result row (C2), not once per referencing table row. -/
theorem C9_global_frequency_sum (fetch : String → Option (List Char))
    (blob_col : List (Option String)) :
    ((analyze_glob_hashes_for_pattern fetch blob_col).2.map Prod.snd).sum
      = ((analyze_glob_hashes_for_pattern fetch blob_col).1.map
          (fun r => r.eid_occ.getD 0)).sum := by
  unfold analyze_glob_hashes_for_pattern
  rw [scanLoop_snd_sum fetch _ [] (by simp), scanLoop_fst]
  simp

theorem drop_one_toList (s : String) : s.toList.drop 1 = s.data.tail := by
  simp [String.toList, List.drop_one]

theorem rbc_not_plain (s : String)
    (hp : firstCharIs s 'R' = true ∨ firstCharIs s 'B' = true
      ∨ firstCharIs s 'C' = true) :
    s ≠ "A" ∧ s ≠ "D" ∧ s ≠ "M" ∧ s ≠ "T" ∧ s ≠ "U" := by
  refine ⟨?_, ?_, ?_, ?_, ?_⟩ <;> (rintro rfl; revert hp; decide)

/-- C10: `contextualise_git_status` returns "unknown" for every non-string
and for every string matching no recognized code, but is not total on
strings: an R/C/B-prefixed status whose remainder `int()` cannot parse (such
as "R" or "Rab") raises ValueError, and the function returns without raising
exactly when every R/C/B-prefixed status carries a decimal similarity
suffix. -/
theorem C10_contextualise_totality :
    (contextualise_git_status .other = .ok "unknown")
    ∧ (∀ s : String, s ≠ "A" → s ≠ "D" → s ≠ "M" → s ≠ "T" → s ≠ "U" →
        ¬(firstCharIs s 'R' = true) → ¬(firstCharIs s 'B' = true) →
        ¬(firstCharIs s 'C' = true) →
        contextualise_git_status (.str s) = .ok "unknown")
    ∧ (∀ s : String,
        (firstCharIs s 'R' = true ∨ firstCharIs s 'B' = true
          ∨ firstCharIs s 'C' = true) →
        int_parse (s.toList.drop 1) = none →
        contextualise_git_status (.str s) = .error .valueError)
    ∧ contextualise_git_status (.str "R") = .error .valueError
    ∧ contextualise_git_status (.str "Rab") = .error .valueError
    ∧ (∀ s : String,
        ((firstCharIs s 'R' = true ∨ firstCharIs s 'B' = true
          ∨ firstCharIs s 'C' = true) → (int_parse (s.toList.drop 1)).isSome) →
        ∃ out, contextualise_git_status (.str s) = .ok out) := by
  refine ⟨rfl, ?_, ?_, by decide, by decide, ?_⟩
  · intro s hA hD hM hT hU hR hB hC
    simp [contextualise_git_status, hA, hD, hM, hT, hU, hR, hB, hC]
  · intro s hp hnone
    obtain ⟨hA, hD, hM, hT, hU⟩ := rbc_not_plain s hp
    rw [drop_one_toList] at hnone
    by_cases hR : firstCharIs s 'R' = true
    · simp [contextualise_git_status, hA, hD, hM, hT, hU, hR, hnone]
    · by_cases hB : firstCharIs s 'B' = true
      · simp [contextualise_git_status, hA, hD, hM, hT, hU, hR, hB, hnone]
      · have hC : firstCharIs s 'C' = true := by tauto
        simp [contextualise_git_status, hA, hD, hM, hT, hU, hR, hB, hC, hnone]
  · intro s hp
    by_cases hA : s = "A"
    · exact ⟨"added", by simp [contextualise_git_status, hA]⟩
    · by_cases hD : s = "D"
      · exact ⟨"deleted", by simp [contextualise_git_status, hA, hD]⟩
      · by_cases hM : s = "M"
        · exact ⟨"modified", by simp [contextualise_git_status, hA, hD, hM]⟩
        · by_cases hT : s = "T"
          · exact ⟨"type_change", by simp [contextualise_git_status, hA, hD, hM, hT]⟩
          · by_cases hU : s = "U"
            · exact ⟨"unmerged_conflict",
                by simp [contextualise_git_status, hA, hD, hM, hT, hU]⟩
            · by_cases hR : firstCharIs s 'R' = true
              · obtain ⟨n, hn⟩ := Option.isSome_iff_exists.mp (hp (Or.inl hR))
                rw [drop_one_toList] at hn
                exact ⟨"renamed_similarity_" ++ toString n ++ "%",
                  by simp [contextualise_git_status, hA, hD, hM, hT, hU, hR, hn]⟩
              · by_cases hB : firstCharIs s 'B' = true
                · obtain ⟨n, hn⟩ := Option.isSome_iff_exists.mp (hp (Or.inr (Or.inl hB)))
                  rw [drop_one_toList] at hn
                  exact ⟨"broken_pairing_similarity_" ++ toString n ++ "%",
                    by simp [contextualise_git_status, hA, hD, hM, hT, hU, hR, hB, hn]⟩
                · by_cases hC : firstCharIs s 'C' = true
                  · obtain ⟨n, hn⟩ := Option.isSome_iff_exists.mp
                      (hp (Or.inr (Or.inr hC)))
                    rw [drop_one_toList] at hn
                    exact ⟨"copied_similarity_" ++ toString n ++ "%",
                      by simp [contextualise_git_status, hA, hD, hM, hT, hU,
                        hR, hB, hC, hn]⟩
                  · exact ⟨"unknown",
                      by simp [contextualise_git_status, hA, hD, hM, hT, hU,
                        hR, hB, hC]⟩

/-- C7 evaluation: a `git ls-tree` failure on the FIRST commit aborts the
whole run with UnboundLocalError — the except handler reads the
never-assigned `ls_tree_cmd` — while the same failure on a later commit is
skipped and the other commits' entries are returned, as the claim expects. -/
theorem C7_first_commit_failure_aborts :
    (get_blob_hashes_for_commits (fun _ => .error ()) ["c1", "c2"]
        = .error .unboundLocalError)
    ∧ (get_blob_hashes_for_commits
          (fun c => if c = "c2" then .error ()
            else if c = "c1" then .ok "100644 blob h1\tfileA\x00".toList
            else .ok "100644 blob h3\tfileB\x00".toList)
          ["c1", "c2", "c3"]
        = .ok [{ commit := "c1", blob_hash := "h1", filename := "fileA" },
               { commit := "c3", blob_hash := "h3", filename := "fileB" }]) := by
  have h2 : uniqueKeepFirst ["c1", "c2"] = ["c1", "c2"] := by
    simp [uniqueKeepFirst]
  have h3 : uniqueKeepFirst ["c1", "c2", "c3"] = ["c1", "c2", "c3"] := by
    simp [uniqueKeepFirst]
  constructor
  · rw [get_blob_hashes_for_commits, h2]; decide
  · rw [get_blob_hashes_for_commits, h3]; decide

/-- C8 evaluation: a copy-status log line (two tab-separated paths) falls
into the non-rename branch, so the parsed row records the OLD path as its
filename and leaves old_filename empty — unlike a rename-status line, which
records the new path and the old path as the claim describes. -/
theorem C8_copy_status_drops_new_path :
    parse_full_log_to_dataframe
        "COMMIT_START|abc|2024-05-01T10:00:00+01:00|refs\nC75\told.txt\tnew.txt"
      = [{ commit := "abc", status := "C75", filename := "old.txt",
           date := "2024-05-01T10:00:00+01:00", refs := "refs",
           old_filename := "" }]
    ∧ parse_full_log_to_dataframe
        "COMMIT_START|abc|2024-05-01T10:00:00+01:00|refs\nR75\told.txt\tnew.txt"
      = [{ commit := "abc", status := "R75", filename := "new.txt",
           date := "2024-05-01T10:00:00+01:00", refs := "refs",
           old_filename := "old.txt" }] := by
  constructor <;> decide

theorem mem_leftJoin_of_no_match {α β γ : Type} (key : α → β → Bool)
    (combine : α → Option β → γ) (left : List α) (right : List β) (a : α)
    (ha : a ∈ left) (hk : ∀ b ∈ right, key a b = false) :
    combine a none ∈ leftJoin key combine left right := by
  unfold leftJoin
  refine List.mem_flatMap.mpr ⟨a, ha, ?_⟩
  rw [List.filter_eq_nil_iff.mpr (by intro b hb; simp [hk b hb])]
  exact List.mem_singleton.mpr rfl

/-- C3: every row of the final audit table has
`total_occ = content count (null as 0) + filename flag`, the flag is 1
exactly when the path matches the sensitive-ID pattern, and the total is
never negative. -/
theorem C3_total_occ_decomposition (fetch : String → Option (List Char))
    (guessType : String → Option String) (log : List LogRow)
    (trees : List TreeRow) (sizes : List SizeRow) (r : AuditRow)
    (hr : r ∈ auditTable fetch guessType log trees sizes) :
    r.total_occ = r.eid_occ.getD 0 + r.filename_occ
    ∧ r.filename_occ = (if searchMatches r.filename.toList then 1 else 0)
    ∧ 0 ≤ r.total_occ := by
  unfold auditTable addTotalOcc at hr
  obtain ⟨r1, hr1, hre⟩ := List.mem_map.mp hr
  unfold analyse_file_names at hr1
  obtain ⟨r2, _, hr2⟩ := List.mem_map.mp hr1
  subst hre
  subst hr2
  refine ⟨rfl, rfl, Nat.zero_le _⟩

/-- C5: a change event with no matching tree entry is preserved by the
left-joins with null blob_hash, null size and null scan fields, while its
filename flag and file extension are still computed from its path. -/
theorem C5_deleted_file_row_preserved (fetch : String → Option (List Char))
    (guessType : String → Option String) (log : List LogRow)
    (trees : List TreeRow) (sizes : List SizeRow) (e : LogRow) (he : e ∈ log)
    (hnone : ∀ t ∈ trees, ¬(t.commit = e.commit ∧ t.filename = e.filename)) :
    ∃ r ∈ auditTable fetch guessType log trees sizes,
      r.commit = e.commit ∧ r.status = e.status ∧ r.filename = e.filename
      ∧ r.blob_hash = none ∧ r.size_bytes = none ∧ r.eid_occ = none
      ∧ r.unique_occ = none ∧ r.found_ids = none
      ∧ r.filename_occ = (if searchMatches e.filename.toList then 1 else 0)
      ∧ r.file_ext = (guessType e.filename).getD "unknown" := by
  have h1 : rowOfLog e ∈ mergeTree log trees := by
    have := mem_leftJoin_of_no_match
      (fun e t => e.commit == t.commit && e.filename == t.filename)
      (fun e ob =>
        match ob with
        | some t => { rowOfLog e with blob_hash := some t.blob_hash }
        | none => rowOfLog e)
      log trees e he ?_
    · exact this
    · intro t ht
      have := hnone t ht
      simp only [Bool.and_eq_false_iff, beq_eq_false_iff_ne, ne_eq]
      tauto
  have h2 : rowOfLog e ∈ mergeSizes (mergeTree log trees) sizes := by
    have := mem_leftJoin_of_no_match
      (fun (r : AuditRow) (s : SizeRow) => r.blob_hash == some s.blob_hash)
      (fun (r : AuditRow) (os : Option SizeRow) =>
        match os with
        | some s => { r with size_bytes := some s.size_bytes }
        | none => r)
      (mergeTree log trees) sizes (rowOfLog e) h1 ?_
    · exact this
    · intro s _
      simp [rowOfLog]
  have h3 : rowOfLog e ∈ mergeScans (mergeSizes (mergeTree log trees) sizes)
      ((analyze_glob_hashes_for_pattern fetch
        ((mergeSizes (mergeTree log trees) sizes).map (fun r => r.blob_hash))).1) := by
    have := mem_leftJoin_of_no_match
      (fun (r : AuditRow) (s : ScanRow) => r.blob_hash == some s.blob_hash)
      (fun (r : AuditRow) (os : Option ScanRow) =>
        match os with
        | some s => { r with eid_occ := s.eid_occ, unique_occ := some s.unique_occ,
                             found_ids := some s.found_ids }
        | none => r)
      (mergeSizes (mergeTree log trees) sizes)
      ((analyze_glob_hashes_for_pattern fetch
        ((mergeSizes (mergeTree log trees) sizes).map (fun r => r.blob_hash))).1)
      (rowOfLog e) h2 ?_
    · exact this
    · intro s _
      simp [rowOfLog]
  refine ⟨_, List.mem_map.mpr ⟨_, List.mem_map.mpr ⟨rowOfLog e, h3, rfl⟩, rfl⟩,
    rfl, rfl, rfl, rfl, rfl, rfl, rfl, rfl, rfl, rfl⟩

theorem auditTable_single (fetch : String → Option (List Char))
    (guessType : String → Option String) (e : LogRow) :
    auditTable fetch guessType [e] [] [] =
      [{ rowOfLog e with
          filename_occ := if searchMatches e.filename.toList then 1 else 0,
          file_ext := (guessType e.filename).getD "unknown",
          total_occ := if searchMatches e.filename.toList then 1 else 0 }] := by
  simp [auditTable, mergeTree, mergeSizes, mergeScans, leftJoin,
    analyze_glob_hashes_for_pattern, uniqueKeepFirst, scanLoop,
    analyse_file_names, addTotalOcc, rowOfLog]

/-- Witness for C3 on a one-row table. -/
theorem C3_total_occ_decomposition_witness :
    sampleFinalRow.total_occ
        = sampleFinalRow.eid_occ.getD 0 + sampleFinalRow.filename_occ
    ∧ sampleFinalRow.filename_occ
        = (if searchMatches sampleFinalRow.filename.toList then 1 else 0)
    ∧ 0 ≤ sampleFinalRow.total_occ :=
  C3_total_occ_decomposition (fun _ => none) (fun _ => none) [sampleLog] [] []
    sampleFinalRow (by rw [auditTable_single]; decide)

/-- Witness for C5: a deleted file whose commit has no tree entry. -/
theorem C5_deleted_file_row_preserved_witness :
    ∃ r ∈ auditTable (fun _ => none) (fun _ => none) [sampleLog] [sampleTree] [],
      r.commit = sampleLog.commit ∧ r.status = sampleLog.status
      ∧ r.filename = sampleLog.filename
      ∧ r.blob_hash = none ∧ r.size_bytes = none ∧ r.eid_occ = none
      ∧ r.unique_occ = none ∧ r.found_ids = none
      ∧ r.filename_occ = (if searchMatches sampleLog.filename.toList then 1 else 0)
      ∧ r.file_ext = ((fun _ => none : String → Option String)
          sampleLog.filename).getD "unknown" :=
  C5_deleted_file_row_preserved (fun _ => none) (fun _ => none) [sampleLog]
    [sampleTree] [] sampleLog (by simp) (by decide)

/-- C1: the sensitive-ID matcher (the regex returned by `regex_pattern`,
applied with findall) matches exactly the 7-digit integers in the range
[1000000, 6500000] that are not preceded by another digit, a literal dot, or a
case-insensitive rs prefix, and not followed by another digit; in particular
"1234567" matches, while "0123456", "123456", "91234567" and "rs1234567" do
not, and "3081375_20215_0_0.zip" and "3240971.tsv" each yield exactly one
match. -/
theorem C1_regex_matches_exactly_spec :
    (∀ (s : List Char) (i : Nat), regexMatchAt s i = true ↔ specMatchAt s i = true)
    ∧ findallPositions "1234567".toList = [0]
    ∧ findallPositions "0123456".toList = []
    ∧ findallPositions "123456".toList = []
    ∧ findallPositions "91234567".toList = []
    ∧ findallPositions "rs1234567".toList = []
    ∧ findallPositions "3081375_20215_0_0.zip".toList = [0]
    ∧ findallPositions "3240971.tsv".toList = [0] :=
  ⟨regexMatchAt_iff_spec, by decide, by decide, by decide, by decide,
    by decide, by decide, by decide⟩

/-- Witness for C1 at a concrete input. -/
theorem C1_regex_matches_exactly_spec_witness :
    regexMatchAt "1234567".toList 0 = true ↔ specMatchAt "1234567".toList 0 = true :=
  C1_regex_matches_exactly_spec.1 "1234567".toList 0

end GitAudit
